import Mathlib

/-!
PluralKit `scheduled_tasks` service: scheduler, failure isolation, statistics queries.

A shallow embedding of `services/scheduled_tasks/main.go` and
`services/scheduled_tasks/tasks.go`.

Conventions of the embedding

* Instants and durations are `Int` nanoseconds (instants count from the Unix epoch, UTC);
  calendar fields are those of the proleptic Gregorian calendar, as in package `time`.
* A goroutine launched by `go` is run to completion at the point of the `go` statement; a
  panic that no goroutine recovers terminates the process.
* Everything the program does to the outside (log lines, standard output, error tracker
  calls, database queries, sleeps, goroutine launches) is appended to `World.trace`.
* A Go function that may panic is a function `World → World × Outcome`; a panic is the
  outcome `Outcome.panicked v` carrying the value handed to `panic`.
* `log.Println` prefixes a timestamp to each line; the trace keeps the message only.
-/

namespace ScheduledTasks

/-! ## Go values that can be handed to `panic` -/

/-- A dynamic Go value (`interface{}`), as far as `wrapRecover` can tell values apart:
a value implementing `error` (with the text its `Error()` method returns), a `string`,
or an `int`. The value is never `nil`: `recover()` yields a non-nil value for every panic
the model represents. -/
inductive GoValue where
  | error (msg : String)
  | string (s : String)
  | int (n : Int)
  deriving DecidableEq, Repr

namespace GoValue

/-- Whether the dynamic type is `string`. -/
def isString : GoValue → Bool
  | string _ => true
  | _ => false

/-- Text of a value under the default format of package `fmt`:
an error prints its `Error()` text, a string prints itself, an integer prints in decimal. -/
def render : GoValue → String
  | error msg => msg
  | string s => s
  | int n => toString n

/-- The expression `v.(error).Error()`: the message of an error; for any other dynamic type
the unchecked assertion panics with a `*runtime.TypeAssertionError` (itself an `error`). -/
def assertErrorMessage : GoValue → Except GoValue String
  | error msg => .ok msg
  | string _ => .error (error "interface conversion: string is not error: missing method Error")
  | int _ => .error (error "interface conversion: int is not error: missing method Error")

end GoValue

/-- How a call ended: it returned, or it panicked with a value. -/
inductive Outcome where
  | returned
  | panicked (v : GoValue)
  deriving DecidableEq, Repr

/-! ## Observable effects -/

/-- One observable action of the process. -/
inductive Event where
  /-- The call `sentry.Init(sentry.ClientOptions{Dsn: dsn})`. -/
  | sentryInit (dsn : String)
  /-- The call `sentry.CaptureException(v)`. -/
  | captureException (v : GoValue)
  /-- The call `sentry.CaptureMessage(text)`. -/
  | captureMessage (text : String)
  /-- One `log.Println` call; `line` is the operands joined by single spaces. -/
  | logPrintln (line : String)
  /-- One `fmt.Println` call to standard output. -/
  | fmtPrintln (text : String)
  /-- The call `connect_dbs()`. -/
  | connectDbs
  /-- The call `run_simple_pg_query(data_db, q)`. -/
  | pgQuery (q : String)
  /-- A completed `time.Sleep(d)`. -/
  | sleep (d : Int)
  /-- A `doforever(dur, withtime(name, ...))` loop entered by `main`. -/
  | schedulerStart (dur : Int) (name : String)
  deriving DecidableEq, Repr

/-- State of the process and its surroundings.

* `now`: the reading of `time.Now()`;
* `stack`: the text `debug.Stack()` returns in the goroutine that is running;
* `counter`: a variable of the program shared with task bodies;
* `trace`: every observable action so far, oldest first. -/
structure World where
  now : Int
  stack : String
  counter : Nat
  trace : List Event
  deriving DecidableEq, Repr

/-- Append one event to the trace. -/
def World.emit (w : World) (e : Event) : World :=
  { w with trace := w.trace ++ [e] }

/-- A zero-argument Go function `func()` that may panic. -/
abbrev Task := World → World × Outcome

/-! ## Library functions used by the source -/

/-- Go `strings.Split(s, "\n")` on the characters of `s`: the pieces between newlines;
always at least one piece. -/
def splitNewlines : List Char → List (List Char)
  | [] => [[]]
  | c :: cs =>
    if c = '\n' then [] :: splitNewlines cs
    else
      match splitNewlines cs with
      | [] => [[c]]
      | l :: ls => (c :: l) :: ls

/-- Go `strings.Split(s, "\n")`. -/
def stringsSplitLines (s : String) : List String :=
  (splitNewlines s.data).map String.mk

/-- Go `strings.Join(elems, sep)`. -/
def stringsJoin (elems : List String) (sep : String) : String :=
  sep.intercalate elems

/-- Go `fmt.Sprint(operands...)`: the operands in their default formats; a space is added
between two operands when neither is a string. -/
def fmtSprint : List GoValue → String
  | [] => ""
  | [v] => v.render
  | v :: v2 :: rest =>
    v.render ++ (if v.isString || v2.isString then "" else " ") ++ fmtSprint (v2 :: rest)

/-- Go `log.Println(operands...)`: operands separated by single spaces. -/
def logPrintln (operands : List String) (w : World) : World :=
  w.emit (.logPrintln (" ".intercalate operands))

/-- Go `time.Sleep(d)`: the clock moves on by `d`; a negative or zero `d` returns at once. -/
def timeSleep (d : Int) (w : World) : World :=
  { w.emit (.sleep d) with now := w.now + max d 0 }

/-- The panic value of the slice expression `stack[7:]` on a slice of length `len < 7`. -/
def sliceBoundsError (len : Nat) : GoValue :=
  .error ("runtime error: slice bounds out of range [7:" ++ toString len ++ "]")

/-- Durations of package `time`, in nanoseconds. -/
def Duration.Second : Int := 1000000000

/-- Go `time.Minute`. -/
def Duration.Minute : Int := 60 * Duration.Second

namespace Time

/-- Days since 1970-01-01 of a UTC instant. -/
def unixDay (t : Int) : Int := t / (86400 * Duration.Second)

/-- Year within a 400-year era, from the day within the era (day 0 is 1 March). -/
def yearOfEra (doe : Int) : Int :=
  (doe - doe / 1460 + doe / 36524 - doe / 146096) / 365

/-- Day within the year that starts on 1 March, from the day within the era. -/
def dayOfYear (doe : Int) : Int :=
  doe - (365 * yearOfEra doe + yearOfEra doe / 4 - yearOfEra doe / 100)

/-- The date `(year, month, day)` of a day number in the proleptic Gregorian calendar, the
calendar of package `time`; months count from 1 (`time.January`). -/
def civilFromDays (z : Int) : Int × Int × Int :=
  let z := z + 719468
  let era := z / 146097
  let doe := z % 146097
  let yoe := yearOfEra doe
  let doy := dayOfYear doe
  let mp := (5 * doy + 2) / 153
  let d := doy - (153 * mp + 2) / 5 + 1
  let m := if mp < 10 then mp + 3 else mp - 9
  let y := yoe + era * 400
  (if m ≤ 2 then y + 1 else y, m, d)

/-- The day number of a date of the proleptic Gregorian calendar, for a month in 1..12. -/
def daysFromCivil (y m d : Int) : Int :=
  let y := if m ≤ 2 then y - 1 else y
  let era := y / 400
  let yoe := y % 400
  let mp := (m + 9) % 12
  let doy := (153 * mp + 2) / 5 + d - 1
  let doe := yoe * 365 + yoe / 4 - yoe / 100 + doy
  era * 146097 + doe - 719468

/-- Go `t.Year()` of a UTC instant. -/
def Year (t : Int) : Int := (civilFromDays (unixDay t)).1

/-- Go `t.Month()` of a UTC instant, in `[1, 12]`. -/
def Month (t : Int) : Int := (civilFromDays (unixDay t)).2.1

/-- Go `t.Day()` of a UTC instant, the day of the month. -/
def Day (t : Int) : Int := (civilFromDays (unixDay t)).2.2

/-- Go `t.Hour()` of a UTC instant, in `[0, 23]`. -/
def Hour (t : Int) : Int := t % (86400 * Duration.Second) / (3600 * Duration.Second)

/-- Go `t.Minute()`, in `[0, 59]`. -/
def Minute (t : Int) : Int := t % (3600 * Duration.Second) / (60 * Duration.Second)

/-- Go `t.Second()`, in `[0, 59]`. -/
def Second (t : Int) : Int := t % (60 * Duration.Second) / Duration.Second

/-- Go `t.Nanosecond()`, in `[0, 999999999]`. -/
def Nanosecond (t : Int) : Int := t % Duration.Second

/-- Go `time.Date(year, month, day, hour, min, sec, nsec, time.UTC)` for a month in 1..12
(the normalisation of an out-of-range month is not modelled; `wait_until_next_minute` passes
the month of an instant). -/
def Date (year month day hour min sec nsec : Int) : Int :=
  daysFromCivil year month day * (86400 * Duration.Second) + hour * (3600 * Duration.Second)
    + min * (60 * Duration.Second) + sec * Duration.Second + nsec

end Time

/-! ## `main.go` -/

/-- The instant `after` of `wait_until_next_minute` (main.go:32-33) when `time.Now().UTC()`
reads `t`. -/
def nextMinute (t : Int) : Int :=
  let now := t + Duration.Minute
  Time.Date (Time.Year now) (Time.Month now) (Time.Day now) (Time.Hour now) (Time.Minute now) 0 0

/-- Source: `wait_until_next_minute` (main.go:31-35). Both calls of `time.Now()` read the
same instant. -/
def wait_until_next_minute (w : World) : World :=
  let after := nextMinute w.now
  timeSleep (after - w.now) w

/-- The process environment: variable names with their values. -/
abbrev Env := List (String × String)

/-- Go `os.LookupEnv(key)`: the value and whether the variable is present. -/
def osLookupEnv (env : Env) (key : String) : Option String :=
  env.lookup key

/-- Go `os.Getenv(key)`: the value, or the empty string when the variable is absent. -/
def osGetenv (env : Env) (key : String) : String :=
  (osLookupEnv env key).getD ""

/-- Source: `get_env_var` (main.go:37-42). -/
def get_env_var (env : Env) (key : String) : Except GoValue String :=
  match osLookupEnv env key with
  | some val => .ok val
  | none => .error (.error ("missing `" ++ key ++ "` in environment"))

/-- Source: `withtime` (main.go:44-51). `durString` is `time.Duration.String`.
When `todo` panics the two statements after the call are not reached. -/
def withtime (durString : Int → String) (name : String) (todo : Task) : Task := fun w =>
  let timeBefore := w.now
  match todo w with
  | (w1, .returned) =>
    let timeAfter := w1.now
    (logPrintln ["ran", name, "in", durString (timeAfter - timeBefore)] w1, .returned)
  | (w1, .panicked v) => (w1, .panicked v)

/-- The error tracker call of `wrapRecover` (main.go:63-67): the checked assertion
`err.(error)` chooses between `sentry.CaptureException(val)` and
`sentry.CaptureMessage(fmt.Sprint("unknown error", err))`. -/
def reportToSentry (err : GoValue) : Event :=
  match err with
  | .error _ => .captureException err
  | _ => .captureMessage (fmtSprint [.string "unknown error", err])

/-- Source: `wrapRecover` (main.go:60-77).

The deferred function runs when `todo` panicked; `recover()` yields the panic value `err`.
The error tracker is called first (lines 63-67), then the stack text is split and sliced
(lines 69-70), then `err.(error).Error()` is evaluated as an operand of `log.Println`
(line 71) before anything is logged, then the remaining trace is printed (line 72).
The slice expression and the unchecked assertion are the two places where the deferred
function can itself panic; such a panic leaves `wrapRecover`. -/
def wrapRecover (todo : Task) : Task := fun w =>
  match todo w with
  | (w1, .returned) => (w1, .returned)
  | (w1, .panicked err) =>
    let w2 := w1.emit (reportToSentry err)
    let stack := stringsSplitLines w2.stack
    if stack.length < 7 then
      (w2, .panicked (sliceBoundsError stack.length))
    else
      let stack := stack.drop 7
      match err.assertErrorMessage with
      | .error v => (w2, .panicked v)
      | .ok msg =>
        let w3 := logPrintln ["error running tasks:", msg] w2
        (w3.emit (.fmtPrintln (stringsJoin stack "\n")), .returned)

/-- What the loop of `doforever` itself does, as opposed to the invocations it launches. -/
inductive LoopEvent where
  /-- A `go wrapRecover(todo)` statement, executed when the clock read `t`. -/
  | launch (t : Int)
  /-- A completed `time.Sleep(d)` of the loop. -/
  | sleep (d : Int)
  deriving DecidableEq, Repr

/-- The process while a `doforever` loop runs: the world, the value of a panic that no
goroutine recovered (such a panic terminates the whole process), and the statements the
loop has executed, oldest first. -/
structure Proc where
  world : World
  fatal : Option GoValue
  loop : List LoopEvent
  deriving DecidableEq, Repr

/-- The process on entry to `doforever`. -/
def Proc.enter (w : World) : Proc :=
  { world := w, fatal := none, loop := [] }

/-- One iteration of the loop of `doforever` (main.go:55-56): `go wrapRecover(todo)`, then
`time.Sleep(dur)`. The launched goroutine is run to completion while the loop sleeps
(invocations that outlast the interval, and so overlap, are not represented). A panic that
leaves `wrapRecover` terminates the process: the sleep does not complete and no further
iteration runs. -/
def doforeverIter (dur : Int) (todo : Task) (p : Proc) : Proc :=
  match p.fatal with
  | some _ => p
  | none =>
    let t0 := p.world.now
    match wrapRecover todo p.world with
    | (w1, .panicked v) =>
      { world := w1, fatal := some v, loop := p.loop ++ [.launch t0] }
    | (w1, .returned) =>
      { world := { w1 with now := max w1.now (t0 + max dur 0) }, fatal := none,
        loop := p.loop ++ [.launch t0, .sleep dur] }

/-- Source: `doforever` (main.go:53-58), the first `n` iterations of the endless loop. -/
def doforever (dur : Int) (todo : Task) : Nat → Proc → Proc
  | 0, p => p
  | n + 1, p => doforever dur todo n (doforeverIter dur todo p)

/-- Source: `main` (main.go:14-29), up to the point where both `doforever` loops are entered
(the function itself never returns from there): `Outcome.returned` stands for a completed
startup, `Outcome.panicked` for a fatal one.

`sentryInit dsn` is the `error` that `sentry.Init` returns for the DSN, and `connect_dbs` is
the function of that name; both are defined outside `main.go` and `tasks.go`. -/
def main (sentryInit : String → Option GoValue) (connect_dbs : Task) (env : Env) : Task :=
  fun w =>
  let dsn := osGetenv env "SENTRY_DSN"
  let w1 := w.emit (.sentryInit dsn)
  match sentryInit dsn with
  | some err => (w1, .panicked err)
  | none =>
    let w2 := logPrintln ["connecting to databases"] w1
    match connect_dbs (w2.emit .connectDbs) with
    | (w3, .panicked v) => (w3, .panicked v)
    | (w3, .returned) =>
      let w4 := logPrintln ["starting scheduled tasks runner"] w3
      let w5 := wait_until_next_minute w4
      let w6 := w5.emit (.schedulerStart (Duration.Minute * 10) "message stats updater")
      (w6.emit (.schedulerStart Duration.Minute "scheduled tasks"), .returned)

/-! ## `tasks.go` -/

/-- Source: `table_stat_keys` (tasks.go:16). -/
def table_stat_keys : List String := ["system", "member", "group", "switch", "message"]

/-- The bytes of a Go string (UTF-8). -/
def bytes (s : String) : List UInt8 :=
  s.data.flatMap String.utf8EncodeChar

/-- Source: `plural` (tasks.go:18-23). `key[len(key)-1]` is the last byte; on the empty
string the index is `-1` and the index expression panics. `0x68` is the byte `'h'`. -/
def plural (key : String) : Except GoValue String :=
  match (bytes key).getLast? with
  | none => .error (.error "runtime error: index out of range [-1]")
  | some b => if b = 0x68 then .ok (key ++ "es") else .ok (key ++ "s")

/-- The query text built at tasks.go:32 by `fmt.Sprintf` with two `%s` verbs. -/
def countQuery (key pluralKey : String) : String :=
  "update info set " ++ key ++ "_count = (select count(*) from " ++ pluralKey ++ ")"

/-- The loop of `update_db_meta` (tasks.go:27-35) over the remaining keys.
`run_simple_pg_query q` tells how the call `run_simple_pg_query(data_db, q)` ends; the
function is defined outside `main.go` and `tasks.go`. -/
def update_db_meta_loop (run_simple_pg_query : String → Outcome) : List String → Task
  | [], w => (w, .returned)
  | key :: rest, w =>
    if key = "message" then
      update_db_meta_loop run_simple_pg_query rest w
    else
      match plural key with
      | .error v => (w, .panicked v)
      | .ok pluralKey =>
        let q := countQuery key pluralKey
        let w1 := logPrintln ["data db query:", q] w
        let w2 := w1.emit (.pgQuery q)
        match run_simple_pg_query q with
        | .panicked v => (w2, .panicked v)
        | .returned => update_db_meta_loop run_simple_pg_query rest w2

/-- Source: `update_db_meta` (tasks.go:25-36). -/
def update_db_meta (run_simple_pg_query : String → Outcome) : Task := fun w =>
  update_db_meta_loop run_simple_pg_query table_stat_keys
    (logPrintln ["updating database stats"] w)

/-! ## Inputs used in the examples, and observations of traces -/

/-- A stack text of the shape `debug.Stack()` produces inside the deferred function: a header
line and three frames of two lines each (`debug.Stack`, the deferred function, `panic`), then
the frames of the task; ten lines when split. -/
def sampleStack : String :=
  "goroutine 6 [running]:\nruntime/debug.Stack()\n\t/go/stack.go:24\nmain.wrapRecover.func1()\n\t/app/main.go:69\npanic(0x1, 0x2)\n\t/go/panic.go:884\nmain.task_main()\n\t/app/tasks.go:12\n"

/-- A world at instant 0 with nothing observed yet. -/
def sampleWorld : World :=
  { now := 0, stack := sampleStack, counter := 0, trace := [] }

/-- A task body that panics with the given value. -/
def panicWith (v : GoValue) : Task := fun w => (w, .panicked v)

/-- A task body that increments the shared counter and returns. -/
def incrementCounter : Task := fun w => ({ w with counter := w.counter + 1 }, .returned)

/-- The error tracker calls of a trace, in order. -/
def trackerCalls (tr : List Event) : List Event :=
  tr.filter fun e =>
    match e with
    | .captureException _ => true
    | .captureMessage _ => true
    | _ => false

/-- A rendering of durations for the examples, standing in for `time.Duration.String`. -/
def sampleDurString (d : Int) : String := toString d ++ "ns"

/-- The log lines of a trace that are timing lines of the task `name`: `log.Println` output
beginning `ran <name> in `. -/
def timingLines (name : String) (tr : List Event) : List Event :=
  tr.filter fun e =>
    match e with
    | .logPrintln line => ("ran " ++ name ++ " in ").data.isPrefixOf line.data
    | _ => false

/-- Number of `go wrapRecover(todo)` statements in a loop trace. -/
def launchCount (l : List LoopEvent) : Nat :=
  (l.filter fun e =>
    match e with
    | .launch _ => true
    | .sleep _ => false).length

/-- An error tracker whose `Init` returns no error. The `sentry.Init` of sentry-go returns
no error for the empty DSN: it does not parse it and creates a client that sends nothing. -/
def sentryInitOk : String → Option GoValue := fun _ => none

/-- A `connect_dbs` that returns. -/
def connectDbsOk : Task := fun w => (w, .returned)

/-- The texts of the `run_simple_pg_query` calls of a trace, in order. -/
def pgQueries (tr : List Event) : List String :=
  tr.filterMap fun e =>
    match e with
    | .pgQuery q => some q
    | _ => none

/-- The queries the loop of `update_db_meta` issues for the given keys when every call of
`run_simple_pg_query` returns. -/
def queriesFor : List String → List String
  | [] => []
  | key :: rest =>
    if key = "message" then queriesFor rest
    else
      match plural key with
      | .error _ => []
      | .ok pluralKey => countQuery key pluralKey :: queriesFor rest

/-! ## Shared lemmas -/

theorem fmtSprint_string_then (s : String) (v : GoValue) :
    fmtSprint [.string s, v] = s ++ v.render := by
  simp [fmtSprint, GoValue.isString, GoValue.render]

theorem wrapRecover_of_returned {todo : Task} {w w1 : World} (h : todo w = (w1, .returned)) :
    wrapRecover todo w = (w1, .returned) := by
  simp [wrapRecover, h]

theorem reportToSentry_error (msg : String) :
    reportToSentry (.error msg) = .captureException (.error msg) := rfl

theorem reportToSentry_of_not_error {v : GoValue} (hv : ∀ msg, v ≠ .error msg) :
    reportToSentry v = .captureMessage ("unknown error" ++ v.render) := by
  cases v with
  | error msg => exact absurd rfl (hv msg)
  | string s => simp [reportToSentry, fmtSprint_string_then]
  | int n => simp [reportToSentry, fmtSprint_string_then]

theorem assertErrorMessage_of_not_error {v : GoValue} (hv : ∀ msg, v ≠ .error msg) :
    ∃ e, v.assertErrorMessage = .error e := by
  cases v with
  | error msg => exact absurd rfl (hv msg)
  | string s => exact ⟨_, rfl⟩
  | int n => exact ⟨_, rfl⟩

theorem logPrintln_two (a b : String) (w : World) :
    logPrintln [a, b] w = w.emit (.logPrintln (a ++ " " ++ b)) := by
  simp [logPrintln, String.intercalate, String.intercalate.go]

theorem wrapRecover_of_error {todo : Task} {w w1 : World} {msg : String}
    (h : todo w = (w1, .panicked (.error msg)))
    (hlen : 7 ≤ (stringsSplitLines w1.stack).length) :
    wrapRecover todo w =
      ({ w1 with trace := w1.trace ++
          [.captureException (.error msg),
           .logPrintln ("error running tasks: " ++ msg),
           .fmtPrintln (stringsJoin ((stringsSplitLines w1.stack).drop 7) "\n")] },
       .returned) := by
  have hlen2 : ¬ (stringsSplitLines w1.stack).length < 7 := by omega
  simp [wrapRecover, h, World.emit, hlen2, GoValue.assertErrorMessage, logPrintln_two,
    reportToSentry]

theorem wrapRecover_of_not_error {todo : Task} {w w1 : World} {v : GoValue}
    (h : todo w = (w1, .panicked v)) (hv : ∀ msg, v ≠ .error msg)
    (hlen : 7 ≤ (stringsSplitLines w1.stack).length) :
    ∃ e, v.assertErrorMessage = .error e ∧
      wrapRecover todo w =
        (w1.emit (.captureMessage ("unknown error" ++ v.render)), .panicked e) := by
  have hlen2 : ¬ (stringsSplitLines w1.stack).length < 7 := by omega
  obtain ⟨e, he⟩ := assertErrorMessage_of_not_error hv
  refine ⟨e, he, ?_⟩
  simp [wrapRecover, h, World.emit, hlen2, he, reportToSentry_of_not_error hv]

theorem wrapRecover_of_short_stack {todo : Task} {w w1 : World} {v : GoValue}
    (h : todo w = (w1, .panicked v))
    (hlen : (stringsSplitLines w1.stack).length < 7) :
    wrapRecover todo w =
      (w1.emit (reportToSentry v),
       .panicked (sliceBoundsError (stringsSplitLines w1.stack).length)) := by
  simp [wrapRecover, h, World.emit, hlen]

/-- After a panic of the body, `wrapRecover` has appended its tracker call first, and
nothing it appends after that is a tracker call. -/
theorem wrapRecover_trace_of_panicked {todo : Task} {w w1 : World} {v : GoValue}
    (h : todo w = (w1, .panicked v)) :
    ∃ rest, (wrapRecover todo w).1.trace = w1.trace ++ reportToSentry v :: rest ∧
      trackerCalls rest = [] := by
  by_cases hlen : (stringsSplitLines w1.stack).length < 7
  · exact ⟨[], by simp [wrapRecover_of_short_stack h hlen, World.emit], rfl⟩
  · have hlen2 : 7 ≤ (stringsSplitLines w1.stack).length := by omega
    cases v with
    | error msg =>
      refine ⟨[.logPrintln ("error running tasks: " ++ msg),
        .fmtPrintln (stringsJoin ((stringsSplitLines w1.stack).drop 7) "\n")], ?_, rfl⟩
      simp [wrapRecover_of_error h hlen2, reportToSentry]
    | string s =>
      obtain ⟨e, -, hw⟩ := wrapRecover_of_not_error h (by simp) hlen2
      exact ⟨[], by simp [hw, World.emit, reportToSentry, fmtSprint_string_then], rfl⟩
    | int n =>
      obtain ⟨e, -, hw⟩ := wrapRecover_of_not_error h (by simp) hlen2
      exact ⟨[], by simp [hw, World.emit, reportToSentry, fmtSprint_string_then], rfl⟩

theorem trackerCalls_append (a b : List Event) :
    trackerCalls (a ++ b) = trackerCalls a ++ trackerCalls b := by
  simp [trackerCalls]

theorem logPrintln_ran (name d : String) (w : World) :
    logPrintln ["ran", name, "in", d] w = w.emit (.logPrintln ("ran " ++ name ++ " in " ++ d)) := by
  have h : " ".intercalate ["ran", name, "in", d] = "ran " ++ name ++ " in " ++ d := by
    apply String.ext
    simp [String.intercalate, String.intercalate.go]
  simp [logPrintln, h]

theorem withtime_of_panicked {durString : Int → String} {name : String} {todo : Task}
    {w w1 : World} {v : GoValue} (h : todo w = (w1, .panicked v)) :
    withtime durString name todo w = (w1, .panicked v) := by
  simp [withtime, h]

theorem withtime_of_returned {durString : Int → String} {name : String} {todo : Task}
    {w w1 : World} (h : todo w = (w1, .returned)) :
    withtime durString name todo w =
      (w1.emit (.logPrintln ("ran " ++ name ++ " in " ++ durString (w1.now - w.now))),
       .returned) := by
  simp [withtime, h, logPrintln_ran]

/-! ## Failure isolation: `wrapRecover` -/

/-- C1 (the code departs from the claim). A body that panics with the string `"boom"`:
`wrapRecover` reports it with `CaptureMessage` and then panics itself at the unchecked
assertion `err.(error)` of main.go:71, so a panic does leave `wrapRecover`; and the same
holds for every panic value that is not an error, whatever the stack text. The rest of the
claim holds: `wrapRecover` returns when the body returns, and when the body panics with an
error and the stack text has at least seven lines. -/
theorem wrapRecover_string_panic_escapes :
    wrapRecover (panicWith (.string "boom")) sampleWorld =
        ({ sampleWorld with trace := [.captureMessage "unknown errorboom"] },
         .panicked (.error "interface conversion: string is not error: missing method Error"))
    ∧ (∀ (todo : Task) (w w1 : World) (v : GoValue),
        todo w = (w1, .panicked v) → (∀ msg, v ≠ .error msg) →
        ∃ e, (wrapRecover todo w).2 = .panicked e)
    ∧ (∀ (todo : Task) (w w1 : World),
        todo w = (w1, .returned) → (wrapRecover todo w).2 = .returned)
    ∧ (∀ (todo : Task) (w w1 : World) (msg : String),
        todo w = (w1, .panicked (.error msg)) → 7 ≤ (stringsSplitLines w1.stack).length →
        (wrapRecover todo w).2 = .returned) := by
  refine ⟨by rfl, ?_, ?_, ?_⟩
  · intro todo w w1 v h hv
    by_cases hlen : (stringsSplitLines w1.stack).length < 7
    · exact ⟨_, by rw [wrapRecover_of_short_stack h hlen]⟩
    · obtain ⟨e, -, hw⟩ := wrapRecover_of_not_error h hv (by omega)
      exact ⟨e, by rw [hw]⟩
  · intro todo w w1 h
    rw [wrapRecover_of_returned h]
  · intro todo w w1 msg h hlen
    rw [wrapRecover_of_error h hlen]

/-- C2 as stated fails: for a body that panics with the string `"boom"` the one tracker call
is `CaptureMessage("unknown errorboom")`, not `CaptureMessage` of the rendered text
`"boom"` alone. -/
theorem wrapRecover_captureMessage_text_counterexample :
    trackerCalls (wrapRecover (panicWith (.string "boom")) sampleWorld).1.trace
        = [.captureMessage "unknown errorboom"]
    ∧ trackerCalls (wrapRecover (panicWith (.string "boom")) sampleWorld).1.trace
        ≠ [.captureMessage (GoValue.render (.string "boom"))] := by
  decide

/-- C2 (amended). Whatever value `v` the body panics with, `wrapRecover` adds exactly one
tracker call to those made before: `CaptureException(v)` with `v` unchanged when `v` is an
error, and otherwise `CaptureMessage` of the text `unknown error` directly followed by the
rendered text of `v`. When the body returns, `wrapRecover` leaves the world as the body left
it, so it makes no tracker call. -/
theorem wrapRecover_tracker_calls (todo : Task) (w : World) :
    (∀ w1, todo w = (w1, .returned) → wrapRecover todo w = (w1, .returned)) ∧
    (∀ w1 msg, todo w = (w1, .panicked (.error msg)) →
      trackerCalls (wrapRecover todo w).1.trace
        = trackerCalls w1.trace ++ [.captureException (.error msg)]) ∧
    (∀ w1 v, todo w = (w1, .panicked v) → (∀ msg, v ≠ .error msg) →
      trackerCalls (wrapRecover todo w).1.trace
        = trackerCalls w1.trace ++ [.captureMessage ("unknown error" ++ v.render)]) := by
  refine ⟨fun w1 h => wrapRecover_of_returned h, ?_, ?_⟩
  · intro w1 msg h
    obtain ⟨rest, htr, hrest⟩ := wrapRecover_trace_of_panicked h
    rw [htr, trackerCalls_append, reportToSentry_error]
    simp [trackerCalls] at hrest ⊢
    exact hrest
  · intro w1 v h hv
    obtain ⟨rest, htr, hrest⟩ := wrapRecover_trace_of_panicked h
    rw [htr, trackerCalls_append, reportToSentry_of_not_error hv]
    simp [trackerCalls] at hrest ⊢
    exact hrest

/-- C2 (amended), at concrete inputs: an integer panic value, an error panic value and a
body that returns. -/
theorem wrapRecover_tracker_calls_witness :
    trackerCalls (wrapRecover (panicWith (.int 42)) sampleWorld).1.trace
        = trackerCalls sampleWorld.trace ++ [.captureMessage ("unknown error" ++ "42")]
    ∧ trackerCalls (wrapRecover (panicWith (.error "db down")) sampleWorld).1.trace
        = trackerCalls sampleWorld.trace ++ [.captureException (.error "db down")]
    ∧ wrapRecover incrementCounter sampleWorld
        = ({ sampleWorld with counter := 1 }, .returned) :=
  ⟨(wrapRecover_tracker_calls (panicWith (.int 42)) sampleWorld).2.2 sampleWorld (.int 42) rfl
      (by simp),
   (wrapRecover_tracker_calls (panicWith (.error "db down")) sampleWorld).2.1 sampleWorld
      "db down" rfl,
   (wrapRecover_tracker_calls incrementCounter sampleWorld).1 _ rfl⟩

/-- C8 (the code departs from the claim). A body that panics with the integer `42`, with a
stack text of ten lines: `wrapRecover` makes the tracker call and then panics at
`err.(error)`; it logs no `error running tasks:` line and prints no trace. The same holds
for every panic value that is not an error: the tracker call is all `wrapRecover` adds.
For a panic value that is an error, with a stack text that splits into at least seven
lines `L`, the claim holds: after the tracker call `wrapRecover` logs
`error running tasks: <message>` and prints `L` without its first seven lines, joined by
newlines. -/
theorem wrapRecover_int_panic_logs_nothing :
    (stringsSplitLines sampleWorld.stack).length = 10
    ∧ wrapRecover (panicWith (.int 42)) sampleWorld =
        ({ sampleWorld with trace := [.captureMessage "unknown error42"] },
         .panicked (.error "interface conversion: int is not error: missing method Error"))
    ∧ (∀ (todo : Task) (w w1 : World) (v : GoValue),
        todo w = (w1, .panicked v) → (∀ msg, v ≠ .error msg) →
        (wrapRecover todo w).1.trace = w1.trace ++ [reportToSentry v])
    ∧ (∀ (todo : Task) (w w1 : World) (msg : String),
        todo w = (w1, .panicked (.error msg)) → 7 ≤ (stringsSplitLines w1.stack).length →
        (wrapRecover todo w).1.trace = w1.trace ++
          [.captureException (.error msg),
           .logPrintln ("error running tasks: " ++ msg),
           .fmtPrintln (stringsJoin ((stringsSplitLines w1.stack).drop 7) "\n")]) := by
  refine ⟨by decide, by rfl, ?_, ?_⟩
  · intro todo w w1 v h hv
    by_cases hlen : (stringsSplitLines w1.stack).length < 7
    · rw [wrapRecover_of_short_stack h hlen]; rfl
    · obtain ⟨e, -, hw⟩ := wrapRecover_of_not_error h hv (by omega)
      rw [hw, reportToSentry_of_not_error hv]; rfl
  · intro todo w w1 msg h hlen
    rw [wrapRecover_of_error h hlen]

/-! ## Timing: `withtime` under `wrapRecover` -/

/-- C4 as stated fails: the invocation `wrapRecover(withtime("scheduled tasks", body))` of a
body that panics with the error `db down` reports and logs the failure and returns, and its
trace has no timing line `ran scheduled tasks in ...` at all, where the same invocation of a
body that returns has one. -/
theorem invocation_panic_timing_counterexample :
    wrapRecover (withtime sampleDurString "scheduled tasks" (panicWith (.error "db down")))
        sampleWorld =
      ({ sampleWorld with trace :=
          [.captureException (.error "db down"),
           .logPrintln "error running tasks: db down",
           .fmtPrintln "main.task_main()\n\t/app/tasks.go:12\n"] },
       .returned)
    ∧ timingLines "scheduled tasks"
        (wrapRecover (withtime sampleDurString "scheduled tasks"
          (panicWith (.error "db down"))) sampleWorld).1.trace = []
    ∧ timingLines "scheduled tasks"
        (wrapRecover (withtime sampleDurString "scheduled tasks" incrementCounter)
          sampleWorld).1.trace = [.logPrintln "ran scheduled tasks in 0ns"] := by
  exact ⟨by rfl, by decide, by decide⟩

/-- C4 (amended). In the invocation the scheduler launches, `wrapRecover` is the outer
wrapper and `withtime` the inner one. For a body that returns, the invocation adds exactly
one event to what the body left, the log line `ran <name> in <elapsed>` with the elapsed
time between the two clock readings. For a body that panics, `withtime` passes the panic on
without logging, so the invocation is exactly `wrapRecover` of the bare body: no timing
line is emitted. -/
theorem invocation_timing (durString : Int → String) (name : String) (todo : Task)
    (w : World) :
    (∀ w1, todo w = (w1, .returned) →
      wrapRecover (withtime durString name todo) w =
        ({ w1 with trace := w1.trace ++
            [.logPrintln ("ran " ++ name ++ " in " ++ durString (w1.now - w.now))] },
         .returned)) ∧
    (∀ w1 v, todo w = (w1, .panicked v) →
      withtime durString name todo w = (w1, .panicked v) ∧
      wrapRecover (withtime durString name todo) w = wrapRecover todo w) := by
  refine ⟨fun w1 h => ?_, fun w1 v h => ⟨withtime_of_panicked h, ?_⟩⟩
  · rw [wrapRecover_of_returned (withtime_of_returned h)]; rfl
  · simp [wrapRecover, withtime_of_panicked h, h]

/-- C4 (amended), at concrete inputs: a body that returns after moving the clock by 5, and a
body that panics. -/
theorem invocation_timing_witness :
    wrapRecover (withtime sampleDurString "scheduled tasks"
        (fun w => ({ w with now := w.now + 5 }, .returned))) sampleWorld =
      ({ sampleWorld with now := 5, trace := [.logPrintln "ran scheduled tasks in 5ns"] },
       .returned)
    ∧ wrapRecover (withtime sampleDurString "scheduled tasks" (panicWith (.string "boom")))
        sampleWorld = wrapRecover (panicWith (.string "boom")) sampleWorld :=
  ⟨(invocation_timing sampleDurString "scheduled tasks"
      (fun w => ({ w with now := w.now + 5 }, .returned)) sampleWorld).1 _ rfl,
   ((invocation_timing sampleDurString "scheduled tasks" (panicWith (.string "boom"))
      sampleWorld).2 sampleWorld (.string "boom") rfl).2⟩

/-! ## Alignment: `wait_until_next_minute` -/

theorem Time.yearOfEra_dayOfYear_bounds (doe : Int) (h0 : 0 ≤ doe) (h1 : doe ≤ 146096) :
    0 ≤ Time.yearOfEra doe ∧ Time.yearOfEra doe ≤ 399 ∧
    0 ≤ Time.dayOfYear doe ∧ Time.dayOfYear doe ≤ 365 := by
  unfold Time.dayOfYear Time.yearOfEra
  generalize hb : (doe - doe / 1460 + doe / 36524 - doe / 146096) / 365 = b
  generalize hf : doe / 36524 = f at hb
  generalize hd : b / 100 = d
  have hf2 : f = 0 ∨ f = 1 ∨ f = 2 ∨ f = 3 ∨ f = 4 := by omega
  have hd2 : d = 0 ∨ d = 1 ∨ d = 2 ∨ d = 3 ∨ d = 4 := by omega
  rcases hf2 with h | h | h | h | h <;> rcases hd2 with k | k | k | k | k <;>
    subst h <;> subst k <;> omega

/-- The calendar date of a day number names that day number. -/
theorem Time.daysFromCivil_civilFromDays (z : Int) :
    Time.daysFromCivil (Time.civilFromDays z).1 (Time.civilFromDays z).2.1
      (Time.civilFromDays z).2.2 = z := by
  obtain ⟨hy0, hy1, hd0, hd1⟩ :=
    Time.yearOfEra_dayOfYear_bounds ((z + 719468) % 146097) (by omega) (by omega)
  have hdoy : Time.dayOfYear ((z + 719468) % 146097) = (z + 719468) % 146097
      - (365 * Time.yearOfEra ((z + 719468) % 146097)
          + Time.yearOfEra ((z + 719468) % 146097) / 4
          - Time.yearOfEra ((z + 719468) % 146097) / 100) := rfl
  have hz : z = (z + 719468) / 146097 * 146097 + (z + 719468) % 146097 - 719468 := by omega
  simp only [Time.civilFromDays, Time.daysFromCivil]
  generalize Time.yearOfEra ((z + 719468) % 146097) = yoe at *
  generalize Time.dayOfYear ((z + 719468) % 146097) = doy at *
  generalize (z + 719468) / 146097 = era at *
  generalize (z + 719468) % 146097 = doe at *
  have hera : (yoe + era * 400) / 400 = era := by omega
  have hyoe : (yoe + era * 400) % 400 = yoe := by omega
  have hmp0 : 0 ≤ (5 * doy + 2) / 153 := by omega
  have hmp1 : (5 * doy + 2) / 153 ≤ 11 := by omega
  generalize (5 * doy + 2) / 153 = mp at *
  split_ifs <;> omega

/-- The month and the day of the month of every day number are in range. -/
theorem Time.civilFromDays_range (z : Int) :
    1 ≤ (Time.civilFromDays z).2.1 ∧ (Time.civilFromDays z).2.1 ≤ 12 ∧
    1 ≤ (Time.civilFromDays z).2.2 ∧ (Time.civilFromDays z).2.2 ≤ 31 := by
  obtain ⟨-, -, hd0, hd1⟩ :=
    Time.yearOfEra_dayOfYear_bounds ((z + 719468) % 146097) (by omega) (by omega)
  simp only [Time.civilFromDays]
  generalize Time.dayOfYear ((z + 719468) % 146097) = doy at *
  split_ifs <;> omega

/-- Known dates: the epoch, the day before it, a leap day, and 2023-11-14. -/
theorem Time.civilFromDays_examples :
    Time.civilFromDays 0 = (1970, 1, 1) ∧ Time.civilFromDays (-1) = (1969, 12, 31) ∧
    Time.civilFromDays 11016 = (2000, 2, 29) ∧ Time.civilFromDays 11017 = (2000, 3, 1) ∧
    Time.civilFromDays 19675 = (2023, 11, 14) := by
  decide

/-- Rebuilding an instant from its own date, hour and minute truncates it to the minute. -/
theorem Time.Date_of_fields (t : Int) :
    Time.Date (Time.Year t) (Time.Month t) (Time.Day t) (Time.Hour t) (Time.Minute t) 0 0
      = t - t % (60 * Duration.Second) := by
  simp only [Time.Date, Time.Year, Time.Month, Time.Day, Time.daysFromCivil_civilFromDays,
    Time.unixDay, Time.Hour, Time.Minute, Duration.Second]
  omega

/-- C3. For every instant `T` read from the clock, the wake instant `W = nextMinute T`
computed by `wait_until_next_minute` has seconds 0 and nanoseconds 0, is strictly later than
`T`, is less than 120 s and in fact at most 60 s after `T`, and is the least whole-minute
instant strictly after `T`; the sleep of `wait_until_next_minute` ends at `W`. -/
theorem nextMinute_alignment (T : Int) :
    Time.Second (nextMinute T) = 0 ∧ Time.Nanosecond (nextMinute T) = 0 ∧
    T < nextMinute T ∧
    nextMinute T - T < 120 * Duration.Second ∧
    nextMinute T - T ≤ 60 * Duration.Second ∧
    (∀ M : Int, Time.Second M = 0 → Time.Nanosecond M = 0 → T < M → nextMinute T ≤ M) ∧
    (∀ w : World, w.now = T → (wait_until_next_minute w).now = nextMinute T) := by
  have hW : ∀ t : Int, nextMinute t
      = t + Duration.Minute - (t + Duration.Minute) % (60 * Duration.Second) := by
    intro t
    simp only [nextMinute, Time.Date_of_fields]
  simp only [wait_until_next_minute, timeSleep, World.emit, hW, Time.Second,
    Time.Nanosecond, Duration.Minute, Duration.Second]
  refine ⟨by omega, by omega, by omega, by omega, by omega, ?_, ?_⟩
  · intro M h1 h2 h3
    omega
  · intro w hw
    omega

/-- C3 at a concrete instant, 2023-11-14 22:13:20.123456789 UTC: the wake instant is
22:14:00 sharp, 39.876543211 s later. -/
theorem nextMinute_alignment_witness :
    nextMinute 1700000000123456789 = 1700000040000000000
    ∧ Time.Second (nextMinute 1700000000123456789) = 0
    ∧ (1700000000123456789 : Int) < nextMinute 1700000000123456789 :=
  ⟨by decide, (nextMinute_alignment 1700000000123456789).1,
    (nextMinute_alignment 1700000000123456789).2.2.1⟩

/-! ## The scheduler loop: `doforever` -/

theorem doforeverIter_of_fatal (dur : Int) (todo : Task) {p : Proc} {v : GoValue}
    (h : p.fatal = some v) : doforeverIter dur todo p = p := by
  simp [doforeverIter, h]

theorem doforever_of_fatal (dur : Int) (todo : Task) (n : Nat) {p : Proc} {v : GoValue}
    (h : p.fatal = some v) : doforever dur todo n p = p := by
  induction n with
  | zero => rfl
  | succ n ih => rw [doforever, doforeverIter_of_fatal dur todo h, ih]

theorem doforeverIter_of_returned (dur : Int) {todo : Task} {p : Proc} {w1 : World}
    (hp : p.fatal = none) (h : wrapRecover todo p.world = (w1, .returned)) :
    doforeverIter dur todo p =
      { world := { w1 with now := max w1.now (p.world.now + max dur 0) }, fatal := none,
        loop := p.loop ++ [.launch p.world.now, .sleep dur] } := by
  simp [doforeverIter, hp, h]

theorem doforeverIter_of_panicked (dur : Int) {todo : Task} {p : Proc} {w1 : World}
    {v : GoValue} (hp : p.fatal = none) (h : wrapRecover todo p.world = (w1, .panicked v)) :
    doforeverIter dur todo p =
      { world := w1, fatal := some v, loop := p.loop ++ [.launch p.world.now] } := by
  simp [doforeverIter, hp, h]

/-- Shape of the loop's own trace after `n` iterations, from any live process. -/
theorem doforever_loop_shape (dur : Int) (todo : Task) (n : Nat) :
    ∀ p : Proc, p.fatal = none →
      ((doforever dur todo n p).fatal = none →
        ∃ ts : List Int, ts.length = n ∧
          (doforever dur todo n p).loop
            = p.loop ++ ts.flatMap (fun t => [LoopEvent.launch t, LoopEvent.sleep dur])) ∧
      (∀ v, (doforever dur todo n p).fatal = some v →
        ∃ (ts : List Int) (t : Int), ts.length < n ∧
          (doforever dur todo n p).loop
            = p.loop ++ ts.flatMap (fun t => [LoopEvent.launch t, LoopEvent.sleep dur])
                ++ [LoopEvent.launch t]) ∧
      (0 < n → ∃ rest, (doforever dur todo n p).loop
            = p.loop ++ LoopEvent.launch p.world.now :: rest) := by
  induction n with
  | zero =>
    intro p hp
    refine ⟨fun _ => ⟨[], rfl, by simp [doforever]⟩, ?_, fun h => absurd h (by decide)⟩
    intro v hv
    simp [doforever, hp] at hv
  | succ n ih =>
    intro p hp
    rw [doforever]
    rcases hres : wrapRecover todo p.world with ⟨w1, o⟩
    cases o with
    | returned =>
      have hit := doforeverIter_of_returned dur hp hres
      have hlive : (doforeverIter dur todo p).fatal = none := by rw [hit]
      obtain ⟨h1, h2, h3⟩ := ih (doforeverIter dur todo p) hlive
      have hloop : (doforeverIter dur todo p).loop
          = p.loop ++ [LoopEvent.launch p.world.now, LoopEvent.sleep dur] := by rw [hit]
      refine ⟨?_, ?_, ?_⟩
      · intro hq
        obtain ⟨ts, hlen, hts⟩ := h1 hq
        refine ⟨p.world.now :: ts, by simp [hlen], ?_⟩
        rw [hts, hloop]
        simp
      · intro v hq
        obtain ⟨ts, t, hlen, hts⟩ := h2 v hq
        refine ⟨p.world.now :: ts, t, by simp [hlen], ?_⟩
        rw [hts, hloop]
        simp
      · intro _
        rcases Nat.eq_zero_or_pos n with hn | hn
        · subst hn
          exact ⟨[LoopEvent.sleep dur], by simp [doforever, hloop]⟩
        · obtain ⟨rest, hr⟩ := h3 hn
          exact ⟨LoopEvent.sleep dur :: LoopEvent.launch (doforeverIter dur todo p).world.now
            :: rest, by rw [hr, hloop]; simp⟩
    | panicked v =>
      have hit := doforeverIter_of_panicked dur hp hres
      have hdead : (doforeverIter dur todo p).fatal = some v := by rw [hit]
      rw [doforever_of_fatal dur todo n hdead, hit]
      refine ⟨?_, ?_, ?_⟩
      · intro hq
        simp at hq
      · intro v2 _
        exact ⟨[], p.world.now, by simp, by simp⟩
      · intro _
        exact ⟨[], rfl⟩

/-- C5 as stated fails: one iteration of `doforever(time.Minute, todo)` entered at instant 0
executes the launch first, at instant 0, and the sleep after it; no sleep precedes the first
launch, which is not one interval after entry. -/
theorem doforever_sleep_first_counterexample :
    (doforever Duration.Minute incrementCounter 1 (Proc.enter sampleWorld)).loop
        = [.launch 0, .sleep Duration.Minute]
    ∧ (Proc.enter sampleWorld).world.now = 0
    ∧ ¬ ((Proc.enter sampleWorld).world.now + Duration.Minute ≤ 0) := by
  decide

/-- C5 (amended). In every iteration of `doforever(interval, task)` the loop first launches
the invocation and only then sleeps for the interval. After `n` iterations from entry at
world `w` the loop's own trace is `launch, sleep interval` repeated `n` times when the
process is alive; when an escaped panic has terminated the process it is fewer than `n`
such pairs followed by the last launch. So every sleep is immediately preceded by a launch,
and the first invocation is launched on entry, at the instant `w.now`, before any sleep. -/
theorem doforever_launch_then_sleep (dur : Int) (todo : Task) (n : Nat) (w : World) :
    ((doforever dur todo n (Proc.enter w)).fatal = none →
      ∃ ts : List Int, ts.length = n ∧
        (doforever dur todo n (Proc.enter w)).loop
          = ts.flatMap (fun t => [LoopEvent.launch t, LoopEvent.sleep dur])) ∧
    (∀ v, (doforever dur todo n (Proc.enter w)).fatal = some v →
      ∃ (ts : List Int) (t : Int), ts.length < n ∧
        (doforever dur todo n (Proc.enter w)).loop
          = ts.flatMap (fun t => [LoopEvent.launch t, LoopEvent.sleep dur])
              ++ [LoopEvent.launch t]) ∧
    (0 < n → ∃ rest, (doforever dur todo n (Proc.enter w)).loop
          = LoopEvent.launch w.now :: rest) := by
  have h := doforever_loop_shape dur todo n (Proc.enter w) rfl
  simpa [Proc.enter] using h

/-- C5 (amended), at a concrete input: three iterations with a one-minute interval and a
body that returns at once. -/
theorem doforever_launch_then_sleep_witness :
    (doforever Duration.Minute incrementCounter 3 (Proc.enter sampleWorld)).loop
        = [.launch 0, .sleep Duration.Minute,
           .launch 60000000000, .sleep Duration.Minute,
           .launch 120000000000, .sleep Duration.Minute]
    ∧ ∃ rest, (doforever Duration.Minute incrementCounter 3 (Proc.enter sampleWorld)).loop
        = LoopEvent.launch sampleWorld.now :: rest :=
  ⟨by decide,
   (doforever_launch_then_sleep Duration.Minute incrementCounter 3 sampleWorld).2.2
     (by decide)⟩

theorem launchCount_append (a b : List LoopEvent) :
    launchCount (a ++ b) = launchCount a + launchCount b := by
  simp [launchCount]

/-- With a body that increments the counter, `n` iterations leave the process alive, launch
`n` invocations and add `n` to the counter. -/
theorem doforever_incrementCounter (dur : Int) (n : Nat) :
    ∀ p : Proc, p.fatal = none →
      (doforever dur incrementCounter n p).fatal = none ∧
      (doforever dur incrementCounter n p).world.counter = p.world.counter + n ∧
      launchCount (doforever dur incrementCounter n p).loop = launchCount p.loop + n := by
  induction n with
  | zero => intro p hp; exact ⟨hp, rfl, rfl⟩
  | succ n ih =>
    intro p hp
    have hres : wrapRecover incrementCounter p.world
        = ({ p.world with counter := p.world.counter + 1 }, .returned) :=
      wrapRecover_of_returned rfl
    have hit := doforeverIter_of_returned dur hp hres
    obtain ⟨h1, h2, h3⟩ := ih (doforeverIter dur incrementCounter p) (by rw [hit])
    rw [doforever]
    refine ⟨h1, ?_, ?_⟩
    · rw [h2, hit]; simp; omega
    · rw [h3, hit, launchCount_append]; simp [launchCount]; omega

/-- With a body that panics with the same error every time, and a stack text of at least
seven lines, `n` iterations leave the process alive, launch `n` invocations and add `n`
`CaptureException` calls to the tracker. -/
theorem doforever_error_body (dur : Int) (msg : String) (n : Nat) :
    ∀ p : Proc, p.fatal = none → 7 ≤ (stringsSplitLines p.world.stack).length →
      (doforever dur (panicWith (.error msg)) n p).fatal = none ∧
      trackerCalls (doforever dur (panicWith (.error msg)) n p).world.trace
        = trackerCalls p.world.trace ++ List.replicate n (.captureException (.error msg)) ∧
      launchCount (doforever dur (panicWith (.error msg)) n p).loop
        = launchCount p.loop + n := by
  induction n with
  | zero => intro p hp _; exact ⟨hp, by simp [doforever], rfl⟩
  | succ n ih =>
    intro p hp hst
    have hres := @wrapRecover_of_error (panicWith (.error msg)) p.world p.world msg rfl hst
    have hit := doforeverIter_of_returned dur hp hres
    obtain ⟨h1, h2, h3⟩ := ih (doforeverIter dur (panicWith (.error msg)) p) (by rw [hit])
      (by rw [hit]; exact hst)
    rw [doforever]
    refine ⟨h1, ?_, ?_⟩
    · rw [h2, hit]
      simp [trackerCalls_append, trackerCalls, List.replicate_succ]
    · rw [h3, hit, launchCount_append]; simp [launchCount]; omega

/-- C6 (the code departs from the claim). With a body that panics with the string `"boom"`
every time, five iterations of `doforever` launch one invocation, not five: the first
invocation panics out of `wrapRecover` at `err.(error)` (main.go:71), which terminates the
process, so the launch count does depend on how an earlier invocation ended. The two
scenarios of the claim do hold: a body that increments the counter leaves it at `n` after
`n` iterations, and a body that panics with an error every time leaves `n`
`CaptureException` calls and a live process, each with exactly `n` launches. -/
theorem doforever_string_panic_stops_loop :
    doforever Duration.Minute (panicWith (.string "boom")) 5 (Proc.enter sampleWorld) =
        { world := { sampleWorld with trace := [.captureMessage "unknown errorboom"] },
          fatal := some
            (.error "interface conversion: string is not error: missing method Error"),
          loop := [.launch 0] }
    ∧ launchCount
        (doforever Duration.Minute (panicWith (.string "boom")) 5
          (Proc.enter sampleWorld)).loop = 1
    ∧ (∀ (dur : Int) (n : Nat) (w : World),
        (doforever dur incrementCounter n (Proc.enter w)).fatal = none ∧
        (doforever dur incrementCounter n (Proc.enter w)).world.counter = w.counter + n ∧
        launchCount (doforever dur incrementCounter n (Proc.enter w)).loop = n)
    ∧ (∀ (dur : Int) (msg : String) (n : Nat) (w : World),
        7 ≤ (stringsSplitLines w.stack).length →
        (doforever dur (panicWith (.error msg)) n (Proc.enter w)).fatal = none ∧
        trackerCalls (doforever dur (panicWith (.error msg)) n (Proc.enter w)).world.trace
          = trackerCalls w.trace ++ List.replicate n (.captureException (.error msg)) ∧
        launchCount (doforever dur (panicWith (.error msg)) n (Proc.enter w)).loop = n) := by
  refine ⟨by rfl, by decide, ?_, ?_⟩
  · intro dur n w
    simpa [Proc.enter, launchCount] using doforever_incrementCounter dur n (Proc.enter w) rfl
  · intro dur msg n w hst
    simpa [Proc.enter, launchCount] using
      doforever_error_body dur msg n (Proc.enter w) rfl hst

/-! ## Startup: `main` and `get_env_var` -/

theorem osGetenv_of_absent {env : Env} {key : String} (h : osLookupEnv env key = none) :
    osGetenv env key = "" := by
  simp [osGetenv, h]

theorem osGetenv_cons_self (env : Env) (key val : String) :
    osGetenv ((key, val) :: env) key = val := by
  simp [osGetenv, osLookupEnv, List.lookup]

/-- C7 as stated fails: with `SENTRY_DSN` absent from the environment, `main` hands the empty
DSN to `sentry.Init`; when that returns no error (as it does for an empty DSN) startup goes
on to connect the databases and to enter both scheduler loops. -/
theorem main_absent_dsn_counterexample :
    osLookupEnv [("DATA_DB_URI", "postgres://db")] "SENTRY_DSN" = none
    ∧ main sentryInitOk connectDbsOk [("DATA_DB_URI", "postgres://db")] sampleWorld =
        ({ sampleWorld with
            now := 60000000000,
            trace :=
              [.sentryInit "",
               .logPrintln "connecting to databases",
               .connectDbs,
               .logPrintln "starting scheduled tasks runner",
               .sleep 60000000000,
               .schedulerStart 600000000000 "message stats updater",
               .schedulerStart 60000000000 "scheduled tasks"] },
         .returned) := by
  exact ⟨by decide, by rfl⟩

/-- C7 (amended). `main` reads `SENTRY_DSN` with `os.Getenv`, so an absent variable is
handled exactly like one set to the empty string. Startup is fatal at this step exactly when
`sentry.Init` returns an error for the DSN read, and then `main` panics with that error
having done nothing but the `sentry.Init` call: no database connection, no scheduler. When
`sentry.Init` returns no error, `connect_dbs` is called: a panic of it is fatal, and when it
returns startup completes with the alignment wait and the two scheduler loops. The helper `get_env_var(key)` returns the value when the key is present and
panics with the error `missing <key> in environment` (the key between backquotes) if and
only if the key is absent. -/
theorem main_sentry_dsn (sentryInit : String → Option GoValue) (connect_dbs : Task)
    (env : Env) (w : World) :
    (osLookupEnv env "SENTRY_DSN" = none →
      main sentryInit connect_dbs env w
        = main sentryInit connect_dbs (("SENTRY_DSN", "") :: env) w) ∧
    (∀ err, sentryInit (osGetenv env "SENTRY_DSN") = some err →
      main sentryInit connect_dbs env w
        = (w.emit (.sentryInit (osGetenv env "SENTRY_DSN")), .panicked err)) ∧
    (sentryInit (osGetenv env "SENTRY_DSN") = none →
      (∀ w3 v, connect_dbs
          ((logPrintln ["connecting to databases"]
            (w.emit (.sentryInit (osGetenv env "SENTRY_DSN")))).emit .connectDbs)
          = (w3, .panicked v) →
        main sentryInit connect_dbs env w = (w3, .panicked v)) ∧
      (∀ w3, connect_dbs
          ((logPrintln ["connecting to databases"]
            (w.emit (.sentryInit (osGetenv env "SENTRY_DSN")))).emit .connectDbs)
          = (w3, .returned) →
        (main sentryInit connect_dbs env w).2 = .returned ∧
        (main sentryInit connect_dbs env w).1.trace =
          (wait_until_next_minute
              (logPrintln ["starting scheduled tasks runner"] w3)).trace ++
            [.schedulerStart (Duration.Minute * 10) "message stats updater",
             .schedulerStart Duration.Minute "scheduled tasks"])) ∧
    (∀ key : String,
      (∀ val, osLookupEnv env key = some val → get_env_var env key = .ok val) ∧
      (get_env_var env key = .error (.error ("missing `" ++ key ++ "` in environment"))
        ↔ osLookupEnv env key = none)) := by
  refine ⟨?_, ?_, ?_, ?_⟩
  · intro h
    simp only [main, osGetenv_of_absent h, osGetenv_cons_self]
  · intro err h
    simp [main, h]
  · intro h
    refine ⟨fun w3 v hc => by simp [main, h, hc], fun w3 hc => ?_⟩
    simp only [main, h, hc]
    simp [World.emit]
  · intro key
    refine ⟨fun val h => by simp [get_env_var, h], ?_⟩
    cases h : osLookupEnv env key with
    | none => simp [get_env_var, h]
    | some val => simp [get_env_var, h]

/-- C7 (amended), at concrete inputs: an environment without `SENTRY_DSN`, an error tracker
that rejects the DSN it is given, and a lookup of a present and of an absent key. -/
theorem main_sentry_dsn_witness :
    main (fun _ => some (.error "bad dsn")) connectDbsOk [] sampleWorld
        = ({ sampleWorld with trace := [.sentryInit ""] }, .panicked (.error "bad dsn"))
    ∧ get_env_var [("DATA_DB_URI", "postgres://db")] "DATA_DB_URI" = .ok "postgres://db"
    ∧ get_env_var [("DATA_DB_URI", "postgres://db")] "SENTRY_DSN"
        = .error (.error "missing `SENTRY_DSN` in environment") :=
  ⟨(main_sentry_dsn (fun _ => some (.error "bad dsn")) connectDbsOk [] sampleWorld).2.1
      (.error "bad dsn") rfl,
   ((main_sentry_dsn sentryInitOk connectDbsOk [("DATA_DB_URI", "postgres://db")]
      sampleWorld).2.2.2 "DATA_DB_URI").1 "postgres://db" (by decide),
   ((main_sentry_dsn sentryInitOk connectDbsOk [("DATA_DB_URI", "postgres://db")]
      sampleWorld).2.2.2 "SENTRY_DSN").2.mpr (by decide)⟩

/-! ## `tasks.go`: `plural` and `update_db_meta` -/

theorem utf8EncodeChar_ne_nil (c : Char) : String.utf8EncodeChar c ≠ [] := by
  unfold String.utf8EncodeChar
  simp only []
  split_ifs <;> simp

theorem bytes_getLast?_of_ne_empty {key : String} (h : key ≠ "") :
    ∃ b, (bytes key).getLast? = some b := by
  have hb : bytes key ≠ [] := by
    intro hnil
    apply h
    have hd : key.data = [] := by
      cases hk : key.data with
      | nil => rfl
      | cons c cs =>
        simp [bytes, hk, utf8EncodeChar_ne_nil] at hnil
    exact String.ext hd
  cases hl : (bytes key).getLast? with
  | none => exact absurd (List.getLast?_eq_none_iff.mp hl) hb
  | some b => exact ⟨b, rfl⟩

/-- C9. For every non-empty key, `plural(key)` is the key followed by `es` when the last
byte of the key is `'h'` (0x68) and the key followed by `s` otherwise, so the key is a
proper prefix of the result. On the five `table_stat_keys` it yields systems, members,
groups, switches, messages. On the empty key the index `key[len(key)-1]` is out of range
and `plural` panics. -/
theorem plural_spec :
    (∀ key : String, key ≠ "" →
      ((bytes key).getLast? = some 0x68 → plural key = .ok (key ++ "es")) ∧
      ((bytes key).getLast? ≠ some 0x68 → plural key = .ok (key ++ "s")) ∧
      ∃ r, plural key = .ok r ∧ key.data <+: r.data ∧ key.length < r.length) ∧
    table_stat_keys.map plural
      = [.ok "systems", .ok "members", .ok "groups", .ok "switches", .ok "messages"] ∧
    plural "" = .error (.error "runtime error: index out of range [-1]") := by
  refine ⟨?_, by rfl, by rfl⟩
  intro key hkey
  obtain ⟨b, hb⟩ := bytes_getLast?_of_ne_empty hkey
  refine ⟨fun h => by simp [plural, h], fun h => ?_, ?_⟩
  · have hne : b ≠ 0x68 := fun hEq => h (by rw [hb, hEq])
    simp [plural, hb, hne]
  · by_cases h68 : b = 0x68
    · refine ⟨key ++ "es", by simp [plural, hb, h68], by simp, ?_⟩
      rw [String.length_append]
      exact Nat.lt_add_of_pos_right (by decide)
    · refine ⟨key ++ "s", by simp [plural, hb, h68], by simp, ?_⟩
      rw [String.length_append]
      exact Nat.lt_add_of_pos_right (by decide)

/-- C9 at concrete keys: one ending in `h`, one not. -/
theorem plural_spec_witness :
    plural "switch" = .ok ("switch" ++ "es") ∧ plural "group" = .ok ("group" ++ "s") :=
  ⟨(plural_spec.1 "switch" (by decide)).1 (by decide),
   (plural_spec.1 "group" (by decide)).2.1 (by decide)⟩

theorem pgQueries_append (a b : List Event) :
    pgQueries (a ++ b) = pgQueries a ++ pgQueries b := by
  simp [pgQueries]

/-- The loop of `update_db_meta` over any keys whose plural is defined: the queries issued
are an initial part of `queriesFor keys`, all of it when the loop returns, and the loop
returns when no query panics. -/
theorem update_db_meta_loop_queries (rq : String → Outcome) :
    ∀ (keys : List String) (w : World),
      (∀ key ∈ keys, key ≠ "message" → ∃ p, plural key = .ok p) →
      ∃ issued : List String,
        pgQueries (update_db_meta_loop rq keys w).1.trace = pgQueries w.trace ++ issued ∧
        issued <+: queriesFor keys ∧
        ((update_db_meta_loop rq keys w).2 = .returned → issued = queriesFor keys) ∧
        ((∀ q ∈ queriesFor keys, rq q = .returned) →
          (update_db_meta_loop rq keys w).2 = .returned) := by
  intro keys
  induction keys with
  | nil =>
    intro w _
    exact ⟨[], by simp [update_db_meta_loop], by simp [queriesFor],
      fun _ => by simp [queriesFor], fun _ => by simp [update_db_meta_loop]⟩
  | cons key rest ih =>
    intro w hkeys
    have hrest : ∀ k ∈ rest, k ≠ "message" → ∃ p, plural k = .ok p :=
      fun k hk => hkeys k (List.mem_cons_of_mem _ hk)
    by_cases hmsg : key = "message"
    · obtain ⟨issued, h1, h2, h3, h4⟩ := ih w hrest
      refine ⟨issued, ?_, ?_, ?_, ?_⟩
      · simpa [update_db_meta_loop, hmsg] using h1
      · simpa [queriesFor, hmsg] using h2
      · simpa [update_db_meta_loop, queriesFor, hmsg] using h3
      · simpa [update_db_meta_loop, queriesFor, hmsg] using h4
    · obtain ⟨p, hp⟩ := hkeys key (List.mem_cons_self _ _) hmsg
      cases hq : rq (countQuery key p) with
      | panicked v =>
        refine ⟨[countQuery key p], ?_, ?_, ?_, ?_⟩
        · simp [update_db_meta_loop, hmsg, hp, hq, logPrintln, World.emit, pgQueries]
        · simp [queriesFor, hmsg, hp]
        · simp [update_db_meta_loop, hmsg, hp, hq]
        · intro hall
          have := hall (countQuery key p) (by simp [queriesFor, hmsg, hp])
          rw [hq] at this
          exact absurd this (by simp)
      | returned =>
        obtain ⟨issued, h1, h2, h3, h4⟩ :=
          ih (((logPrintln ["data db query:", countQuery key p] w).emit
            (.pgQuery (countQuery key p)))) hrest
        refine ⟨countQuery key p :: issued, ?_, ?_, ?_, ?_⟩
        · simp only [update_db_meta_loop, hmsg, hp, hq, if_false] 
          rw [h1]
          simp [logPrintln, World.emit, pgQueries]
        · simpa [queriesFor, hmsg, hp] using h2
        · intro hret
          simp only [update_db_meta_loop, hmsg, hp, hq, if_false] at hret
          simp [queriesFor, hmsg, hp, h3 hret]
        · intro hall
          simp only [update_db_meta_loop, hmsg, hp, hq, if_false]
          exact h4 fun q hqm => hall q (by simp [queriesFor, hmsg, hp, hqm])

/-- C10. `update_db_meta` runs one query per key of `table_stat_keys` other than `message`,
in list order. The queries it issues are always an initial part of the four
`update info set K_count = (select count(*) from P)` for (K, P) = (system, systems),
(member, members), (group, groups), (switch, switches); they are exactly these four when
the function returns, and it returns whenever `run_simple_pg_query` returns for each of
them. No query it issues mentions `message`, so none mentions `message_count` or the
`messages` table. -/
theorem update_db_meta_queries (run_simple_pg_query : String → Outcome) (w : World) :
    ∃ issued : List String,
      pgQueries (update_db_meta run_simple_pg_query w).1.trace = pgQueries w.trace ++ issued ∧
      issued <+: ["update info set system_count = (select count(*) from systems)",
                  "update info set member_count = (select count(*) from members)",
                  "update info set group_count = (select count(*) from groups)",
                  "update info set switch_count = (select count(*) from switches)"] ∧
      ((update_db_meta run_simple_pg_query w).2 = .returned →
        issued = ["update info set system_count = (select count(*) from systems)",
                  "update info set member_count = (select count(*) from members)",
                  "update info set group_count = (select count(*) from groups)",
                  "update info set switch_count = (select count(*) from switches)"]) ∧
      ((∀ q ∈ ["update info set system_count = (select count(*) from systems)",
               "update info set member_count = (select count(*) from members)",
               "update info set group_count = (select count(*) from groups)",
               "update info set switch_count = (select count(*) from switches)"],
          run_simple_pg_query q = .returned) →
        (update_db_meta run_simple_pg_query w).2 = .returned) ∧
      (∀ q ∈ issued, ¬ "message".data <:+: q.data) := by
  have hkeys : ∀ key ∈ table_stat_keys, key ≠ "message" → ∃ p, plural key = .ok p := by
    intro key hk _
    simp only [table_stat_keys, List.mem_cons, List.mem_singleton, List.not_mem_nil,
      or_false] at hk
    rcases hk with h | h | h | h | h <;> subst h <;> exact ⟨_, rfl⟩
  have hfour : queriesFor table_stat_keys
      = ["update info set system_count = (select count(*) from systems)",
         "update info set member_count = (select count(*) from members)",
         "update info set group_count = (select count(*) from groups)",
         "update info set switch_count = (select count(*) from switches)"] := by rfl
  obtain ⟨issued, h1, h2, h3, h4⟩ :=
    update_db_meta_loop_queries run_simple_pg_query table_stat_keys
      (logPrintln ["updating database stats"] w) hkeys
  rw [hfour] at h2 h3 h4
  refine ⟨issued, ?_, h2, h3, h4, ?_⟩
  · rw [update_db_meta, h1]
    simp [logPrintln, World.emit, pgQueries]
  · intro q hq
    have hmem := h2.subset hq
    simp only [List.mem_cons, List.mem_singleton, List.not_mem_nil, or_false] at hmem
    rcases hmem with h | h | h | h <;> subst h <;> decide

/-- C10 with a database that answers every query: the four queries, in order. -/
theorem update_db_meta_queries_witness :
    pgQueries (update_db_meta (fun _ => .returned) sampleWorld).1.trace
      = ["update info set system_count = (select count(*) from systems)",
         "update info set member_count = (select count(*) from members)",
         "update info set group_count = (select count(*) from groups)",
         "update info set switch_count = (select count(*) from switches)"]
    ∧ (update_db_meta (fun _ => .returned) sampleWorld).2 = .returned := by
  obtain ⟨issued, h1, -, h3, h4, -⟩ :=
    update_db_meta_queries (fun _ => .returned) sampleWorld
  have hret := h4 (fun _ _ => rfl)
  exact ⟨by rw [h1, h3 hret]; rfl, hret⟩

end ScheduledTasks
